import Mathlib

/-!
Verification of the termnl interactive shell front-end
(`termnl.py`, `termnl_runtime.py`) against its natural-language
specification.  The Python sources are shallowly embedded: pure string
manipulation is translated into executable Lean functions over
`List Char` / `String`, the impure collaborators (`subprocess.run`,
`os.chdir`, `os.path.expanduser`, `shutil.which`, `input()`, the AI
`ask` callback) become oracle parameters, and each REPL handler becomes
an explicit state transformer over a `World` record.
-/

set_option maxHeartbeats 1000000
set_option maxRecDepth 8192

namespace Termnl

/-! ### Python string primitives

Faithful models of the CPython string operations the sources rely on:
`str.strip`, `str.split` (no argument: runs of whitespace),
`str.splitlines`, `str.lower`, `str.islower`, `str.isupper` on a
character, substring containment (`in`), and `str.startswith`. -/

/-- Python `str.isspace` characters relevant to `strip`/`split`. -/
def pyIsSpace (c : Char) : Bool :=
  c = ' ' || c = '\t' || c = '\n' || c = '\r' || c = '\x0b' || c = '\x0c'

/-- Python `s.strip()`: drop leading and trailing whitespace. -/
def pyStrip (s : String) : String :=
  ⟨((s.toList.dropWhile pyIsSpace).reverse.dropWhile pyIsSpace).reverse⟩

/-- Helper for `pySplit`: accumulate the current word (reversed). -/
def pySplitAux : List Char → List Char → List String
  | [], acc => if acc = [] then [] else [⟨acc.reverse⟩]
  | c :: rest, acc =>
    if pyIsSpace c then
      if acc = [] then pySplitAux rest [] else ⟨acc.reverse⟩ :: pySplitAux rest []
    else pySplitAux rest (c :: acc)

/-- Python `s.split()` with no argument: split on runs of whitespace,
discarding empty pieces. -/
def pySplit (s : String) : List String := pySplitAux s.toList []

/-- Python line-break characters recognised by `str.splitlines`. -/
def pyIsLineBreak (c : Char) : Bool :=
  c = '\n' || c = '\r' || c = '\x0b' || c = '\x0c' ||
  c = '\x1c' || c = '\x1d' || c = '\x1e' || c = '\x85' ||
  c = '\u2028' || c = '\u2029'

/-- Helper for `pySplitlines`; `'\r''\n'` counts as a single break. -/
def pySplitlinesAux : List Char → List Char → List String
  | [], acc => if acc = [] then [] else [⟨acc.reverse⟩]
  | '\r' :: '\n' :: rest, acc => (⟨acc.reverse⟩ : String) :: pySplitlinesAux rest []
  | c :: rest, acc =>
    if pyIsLineBreak c then (⟨acc.reverse⟩ : String) :: pySplitlinesAux rest []
    else pySplitlinesAux rest (c :: acc)

/-- Python `s.splitlines()`. -/
def pySplitlines (s : String) : List String := pySplitlinesAux s.toList []

/-- Python `s.lower()` (ASCII, which covers this program's inputs). -/
def pyLower (s : String) : String := ⟨s.toList.map Char.toLower⟩

/-- Python `s.islower()`: at least one cased character and no upper-case
cased character (ASCII). -/
def pyIsLowerStr (s : String) : Bool :=
  s.toList.any Char.isAlpha && s.toList.all (fun c => !c.isUpper)

/-- Does the second list start with the first (the needle)? -/
def listStarts : List Char → List Char → Bool
  | [], _ => true
  | _ :: _, [] => false
  | c :: cs, d :: ds => c = d && listStarts cs ds

/-- Does `hay` contain `needle` as a contiguous substring anywhere? -/
def listContains (needle : List Char) : List Char → Bool
  | [] => listStarts needle []
  | d :: ds => listStarts needle (d :: ds) || listContains needle ds

/-- Python substring containment: `needle in hay`. -/
def strContains (hay needle : String) : Bool := listContains needle.toList hay.toList

/-- Python `s.startswith(p)`. -/
def pyStarts (s p : String) : Bool := listStarts p.toList s.toList

/-- Python code-point slicing `s[n:]`. -/
def pyDrop (s : String) (n : Nat) : String := ⟨s.toList.drop n⟩

/-- Python code-point slicing `s[:n]`. -/
def pyTake (s : String) (n : Nat) : String := ⟨s.toList.take n⟩

/-! ### SessionLog (`termnl_runtime.py`, `SessionLog`)

`HistoryEntry = namedtuple("HistoryEntry", ["cmd", "output", "exit_code", "ts"])`;
the log owns a `deque(maxlen=capacity)` of entries plus a character
`token_budget`.  Timestamps (`datetime.now()`) are modelled as a `Nat`
clock value supplied by the caller. -/

structure HistoryEntry where
  cmd : String
  output : String
  exit_code : Int
  ts : Nat
deriving DecidableEq

structure SessionLog where
  entries : List HistoryEntry
  capacity : Nat
  token_budget : Nat
deriving DecidableEq

/-- A fresh log, as built by `SessionLog.__init__` (defaults
`SESSION_CAPACITY = 12`, `TOKEN_BUDGET = 5000`). -/
def SessionLog.init (capacity token_budget : Nat) : SessionLog :=
  ⟨[], capacity, token_budget⟩

/-- Character size of one entry: `len(e.cmd) + len(e.output)`. -/
def entrySize (e : HistoryEntry) : Nat := e.cmd.length + e.output.length

/-- `sum(len(e.cmd) + len(e.output) for e in entries)`. -/
def logSize (l : List HistoryEntry) : Nat := (l.map entrySize).sum

/-- `output[:600] if output else ""` from `SessionLog.record`. -/
def truncOutput (output : String) : String :=
  if output = "" then "" else pyTake output 600

/-- The `while len > 1 and sum > budget: popleft()` loop of
`SessionLog.record`. -/
def budgetEvict (budget : Nat) : List HistoryEntry → List HistoryEntry
  | [] => []
  | [e] => [e]
  | e :: f :: rest =>
    if budget < logSize (e :: f :: rest) then budgetEvict budget (f :: rest)
    else e :: f :: rest

/-- `SessionLog.record(cmd, output="", exit_code=0)`: truncate the
output to 600 characters, append (the `deque(maxlen=capacity)` drops
the oldest entry when over capacity), then evict oldest entries while
over the token budget and more than one entry remains. -/
def SessionLog.record (log : SessionLog) (cmd output : String) (exit_code : Int)
    (ts : Nat) : SessionLog :=
  let appended := log.entries ++ [⟨cmd, truncOutput output, exit_code, ts⟩]
  let capped :=
    if log.capacity < appended.length then appended.drop (appended.length - log.capacity)
    else appended
  ⟨budgetEvict log.token_budget capped, log.capacity, log.token_budget⟩

/-- The per-entry lines emitted by `SessionLog.render_context`: one
status line, then (when the output is non-empty) at most the first 3
lines of the stripped output, indented four spaces. -/
def entryLines (e : HistoryEntry) : List String :=
  ("[" ++ (if e.exit_code = 0 then "✓" else "✗") ++ "] $ " ++ e.cmd) ::
    (if e.output ≠ "" then
      ((pySplitlines (pyStrip e.output)).take 3).map (fun ln => "    " ++ ln)
    else [])

/-- `SessionLog.render_context()`. -/
def SessionLog.render_context (log : SessionLog) : String :=
  if log.entries = [] then "(no previous commands)"
  else
    String.intercalate "\n"
      ((log.entries.drop (log.entries.length - 6)).flatMap entryLines)

/-! ### Classifier (`termnl_runtime.py`, `classify_input`)

The only impure dependency is `shutil.which`, modelled as an oracle
`whichB : String → Bool` (is the token resolvable on the executable
search path?).  Every score constant in the source is a multiple of
0.5, so Python's float accumulation is exact and the score is carried
here as an integer in half-point units (twice the source's float
value): +3.0 is 6, +2.5 is 5, −0.5 is −1, and the final `score >= 1.0`
threshold is `2 ≤ score`.  `halfPointsToRat` recovers the source's
float value exactly. -/

/-- The source's float score represented by a half-point integer. -/
def halfPointsToRat (s : Int) : ℚ := (s : ℚ) / 2

/-- The natural-language stop-word set `nl_words`. -/
def nlWords : List String :=
  ["how", "what", "why", "where", "when", "who", "which", "can", "could",
   "would", "should", "please", "help", "tell", "give", "is", "are", "do",
   "does", "the", "my", "me", "all", "about", "need", "want"]

/-- `first_token`: the first whitespace-delimited token (or `""`). -/
def firstToken (stripped : String) : String := (pySplit stripped).headD ""

/-- The `effective_token` computation: when the first token looks like an
environment-variable assignment (`FOO=bar ls`), use the first later token
that is assignment-free. -/
def effectiveToken (stripped : String) : String :=
  let ft := firstToken stripped
  if strContains ft "=" && !pyStarts ft "=" then
    match (pySplit stripped).find? (fun p => !strContains p "=" || pyStarts p "=") with
    | some p => p
    | none => ft
  else ft

/-- Number of distinct lowercased tokens that are stop words:
`len(set(stripped.lower().split()) & nl_words)` (set intersection, so
duplicated tokens count once; `nlWords` is duplicate-free). -/
def nlOverlap (stripped : String) : Nat :=
  (nlWords.filter (fun w => (pySplit (pyLower stripped)).contains w)).length

/-- `len(tokens_lower)`: the number of distinct lowercased tokens. -/
def distinctTokenCount (stripped : String) : Nat :=
  ((pySplit (pyLower stripped)).dedup).length

/-- `len(stripped.split())`. -/
def wordCount (stripped : String) : Nat := (pySplit stripped).length

/-- `any(op in stripped for op in shell_operators)`. -/
def hasShellOperator (stripped : String) : Bool :=
  ["|", "&&", "||", ">>", ">;", ";", "$(", "\x60"].any (fun op => strContains stripped op)

/-- A lone `>`: present, not as part of `>>`, and no `→` glyph. -/
def lonelyRedirect (stripped : String) : Bool :=
  strContains stripped ">" && !strContains stripped ">>" && !strContains stripped "→"

/-- The cumulative positive signals (path / `$` / PATH lookup / shell
operator / redirection); these additions do not consult the running
score, so their sum reproduces the source's accumulation. -/
def posSignals (whichB : String → Bool) (stripped : String) : Int :=
  (if pyStarts (effectiveToken stripped) "./" || pyStarts (effectiveToken stripped) "/" ||
      pyStarts (effectiveToken stripped) "~" then 6 else 0) +
  (if pyStarts (effectiveToken stripped) "$" then 5 else 0) +
  (if whichB (effectiveToken stripped) then 4 else 0) +
  (if hasShellOperator stripped then 5 else 0) +
  (if lonelyRedirect stripped then 4 else 0)

/-- The stop-word overlap penalty. -/
def overlapPenalty (stripped : String) : Int :=
  if 2 ≤ nlOverlap stripped then 4
  else if nlOverlap stripped = 1 ∧ 2 < distinctTokenCount stripped then 1
  else 0

/-- The running score after the overlap penalty (the source's `score`
just before the word-count rule). -/
def scoreAfterOverlap (whichB : String → Bool) (stripped : String) : Int :=
  posSignals whichB stripped - overlapPenalty stripped

/-- `word_count >= 4 and score < 2.0` penalty; the score consulted is
the running score after the overlap penalty. -/
def longPenalty (whichB : String → Bool) (stripped : String) : Int :=
  if 4 ≤ wordCount stripped ∧ scoreAfterOverlap whichB stripped < 4 then 3 else 0

/-- `stripped[0].isupper() and word_count > 1` penalty. -/
def upperPenalty (stripped : String) : Int :=
  if (stripped.toList.headD ' ').isUpper ∧ 1 < wordCount stripped then 2 else 0

/-- `"?" in stripped` penalty. -/
def questionPenalty (stripped : String) : Int :=
  if strContains stripped "?" then 6 else 0

/-- `word_count <= 3 and nl_overlap == 0 and stripped.islower()` bonus. -/
def shortLowerBonus (stripped : String) : Int :=
  if wordCount stripped ≤ 3 ∧ nlOverlap stripped = 0 ∧ pyIsLowerStr stripped then 2 else 0

/-- The final heuristic score of `classify_input`, assembled in the
source's accumulation order. -/
def classifyScore (whichB : String → Bool) (stripped : String) : Int :=
  scoreAfterOverlap whichB stripped - longPenalty whichB stripped -
    upperPenalty stripped - questionPenalty stripped + shortLowerBonus stripped

/-- Modelled from the spec: the same score with the question-mark rule
skipped, used only to quantify the rule's contribution of −3.0. -/
def classifyScoreNoQuestion (whichB : String → Bool) (stripped : String) : Int :=
  scoreAfterOverlap whichB stripped - longPenalty whichB stripped -
    upperPenalty stripped + shortLowerBonus stripped

/-- `classify_input(text)`: `"builtin"`, `"shell"` or `"natural"`.  The
`cd` override sits after the (return-free) score computation and before
the threshold test, so it is hoisted here without changing behaviour. -/
def classify_input (whichB : String → Bool) (text : String) : String :=
  let stripped := pyStrip text
  if stripped = "" then "builtin"
  else if pyStarts stripped "!" then "builtin"
  else if stripped = "exit" || stripped = "quit" then "builtin"
  else if stripped = "cd" || pyStarts stripped "cd " then "shell"
  else if 2 ≤ classifyScore whichB stripped then "shell"
  else "natural"

/-! ### Translator (`termnl_runtime.py`, `translate`)

The AI collaborator `ask_ai_fn : str -> str | None` can also raise; one
call is modelled as `AskOutcome`.  `translate` itself either raises
(when the first call raises — nothing catches it there) or returns a
`TranslationResult`, hence `Except Unit TranslationResult`. -/

inductive AskOutcome where
  | raises
  | returns (r : Option String)
deriving DecidableEq

/-- Python truthiness of an `str | None` value. -/
def pyTruthy : Option String → Bool
  | none => false
  | some s => s ≠ ""

structure TranslationResult where
  commands : List String
  explanation : Option String
deriving DecidableEq

/-- The translation prompt f-string built by `translate`. -/
def buildPrompt (user_input cwd os_shell session_context : String) : String :=
  "Convert the following request into executable " ++ os_shell ++ " commands.\n" ++
  "Working directory: " ++ cwd ++ "\n\nSession context:\n" ++ session_context ++
  "\n\nGuidelines:\n" ++
  "- Return ONLY raw commands, one per line — no markdown, no backticks, no commentary\n" ++
  "- For multi-step tasks, put each command on its own line\n" ++
  "- Leverage session context for references like \"do that again\" or \"undo that\"\n" ++
  "- When ambiguous, choose the simplest standard approach\n\n" ++
  "Request: " ++ user_input

/-- The learning-mode explanation prompt f-string. -/
def tipPrompt (cmd_repr : String) : String :=
  "In 1-2 sentences, explain what this command does for someone learning the terminal.\n" ++
  "Command: " ++ cmd_repr ++
  "\nInclude a practical tip about the flags or options used. Start with 💡"

/-- The list comprehension
`[ln.strip() for ln in raw.splitlines() if ln.strip()]`. -/
def parseCommands (raw : String) : List String :=
  ((pySplitlines raw).filter (fun ln => pyStrip ln ≠ "")).map pyStrip

/-- `cmd_repr`: the single command, or the commands joined by
`" && "`. -/
def cmdRepr (commands : List String) : String :=
  if commands.length = 1 then commands.headD ""
  else String.intercalate " && " commands

/-- `translate(user_input, cwd, os_shell, learning_mode, session_context,
ask_ai_fn)`.  The second `ask` call sits inside `try/except: pass`, so
its exception is swallowed; the first call's exception propagates. -/
def translate (user_input cwd os_shell : String) (learning_mode : Bool)
    (session_context : String) (ask : String → AskOutcome) :
    Except Unit TranslationResult :=
  match ask (buildPrompt user_input cwd os_shell session_context) with
  | .raises => .error ()
  | .returns raw =>
    if !pyTruthy raw then .ok ⟨[], none⟩
    else
      let commands := parseCommands (raw.getD "")
      if learning_mode && !commands.isEmpty then
        match ask (tipPrompt (cmdRepr commands)) with
        | .raises => .ok ⟨commands, none⟩
        | .returns tip => .ok ⟨commands, if pyTruthy tip then tip else none⟩
      else .ok ⟨commands, none⟩

/-- The command list of a `translate` result (empty when it raised). -/
def cmdsOf : Except Unit TranslationResult → List String
  | .error _ => []
  | .ok r => r.commands

/-! ### Executor (`termnl_runtime.py` `needs_pty`/`run`, and the
orchestration handlers of `termnl.py`)

`subprocess.run`, `os.chdir`, `os.path.expanduser` and the interactive
replies from `input()` are oracles collected in `ExecEnv`; the mutable
process state (session log, working directory, clock for timestamps) is
`World`. -/

structure ExecResult where
  stdout : String
  stderr : String
  rc : Int
deriving DecidableEq

/-- `_PTY_COMMANDS`. -/
def PTY_COMMANDS : List String :=
  ["clear", "top", "htop", "vim", "vi", "nano", "less", "more", "man",
   "ssh", "tmux", "screen"]

/-- `needs_pty(cmd)`: first whitespace token in the PTY set. -/
def needs_pty (cmd : String) : Bool :=
  PTY_COMMANDS.contains ((pySplit cmd).headD "")

structure ExecEnv where
  /-- Outcome of `subprocess.run(cmd, shell=True, capture_output=True)`. -/
  capture : String → ExecResult
  /-- Return code of the PTY-attached `subprocess.run(cmd, shell=True)`. -/
  ptyRc : String → Int
  /-- Does `os.chdir(path)` succeed? -/
  chdirOk : String → Bool
  /-- `os.path.expanduser`. -/
  expanduser : String → String

/-- `run(cmd)`: PTY commands run attached to the terminal and report
empty stdout/stderr with just the exit code; everything else is
captured. -/
def run (env : ExecEnv) (cmd : String) : ExecResult :=
  if needs_pty cmd then ⟨"", "", env.ptyRc cmd⟩ else env.capture cmd

/-- The dispatcher-owned mutable state: the session log, the process
working directory, and a clock supplying `datetime.now()` timestamps. -/
structure World where
  log : SessionLog
  cwd : String
  clock : Nat
deriving DecidableEq

/-- `session_log.record(cmd, output, exit_code)` at the current time. -/
def recordNow (w : World) (cmd output : String) (exit_code : Int) : World :=
  ⟨w.log.record cmd output exit_code w.clock, w.cwd, w.clock + 1⟩

/-- `_handle_cd(args)`: `expanduser(args.strip())` when non-empty, else
`expanduser("~")`; a failing `os.chdir` is caught and leaves the state
unchanged. -/
def handle_cd (env : ExecEnv) (w : World) (args : String) : World :=
  let path :=
    if pyStrip args ≠ "" then env.expanduser (pyStrip args) else env.expanduser "~"
  if env.chdirOk path then ⟨w.log, path, w.clock⟩ else w

/-- `_handle_force_run(cmd)` (also the body of the direct-shell branch
of `main`): run, then record output and the actual exit code. -/
def handle_force_run (env : ExecEnv) (w : World) (cmd : String) : World :=
  recordNow w cmd ((run env cmd).stdout ++ (run env cmd).stderr) (run env cmd).rc

/-- What `_exec_single` did with its command. -/
inductive SingleOutcome where
  | cancelled
  | ranCd
  | ranProc (r : ExecResult)
deriving DecidableEq

/-- `_exec_single(command)`: any non-empty confirmation reply cancels;
`cd `-prefixed commands mutate the working directory (and are not
recorded); otherwise run and record with the actual exit code. -/
def exec_single (env : ExecEnv) (w : World) (command : String)
    (confirmReply : String) : World × SingleOutcome :=
  if confirmReply ≠ "" then (w, .cancelled)
  else if pyStarts command "cd " then
    (handle_cd env w (pyDrop command 3), .ranCd)
  else
    (recordNow w command ((run env command).stdout ++ (run env command).stderr)
      (run env command).rc, .ranProc (run env command))

/-- `_run_sequence(commands)`: run in order; a `cd `-prefixed command is
applied via `os.chdir` (break on failure, no record); any other command
is run and recorded with its actual exit code, and a non-zero exit code
breaks the loop.  Also returns the commands whose execution was
attempted, in order. -/
def run_sequence (env : ExecEnv) (w : World) : List String → World × List String
  | [] => (w, [])
  | cmd :: rest =>
    if pyStarts cmd "cd " then
      let path := env.expanduser (pyStrip (pyDrop cmd 3))
      if env.chdirOk path then
        let step := run_sequence env ⟨w.log, path, w.clock⟩ rest
        (step.1, cmd :: step.2)
      else (w, [cmd])
    else
      let r := run env cmd
      let w1 := recordNow w cmd (r.stdout ++ r.stderr) r.rc
      if r.rc ≠ 0 then (w1, [cmd])
      else
        let step := run_sequence env w1 rest
        (step.1, cmd :: step.2)

/-- `choice in ("y", "yes", "")` after `.strip().lower()`. -/
def acceptChoice (reply : String) : Bool :=
  pyLower (pyStrip reply) = "y" || pyLower (pyStrip reply) = "yes" ||
    pyLower (pyStrip reply) = ""

/-- `choice == "q"` after `.strip().lower()`. -/
def quitChoice (reply : String) : Bool := pyLower (pyStrip reply) = "q"

/-- `_run_stepping(commands)` with the reply to the `i`-th prompt given
by `replies i`; `i` is the index of the next command.  An accepted `cd `
command is applied via `os.chdir` (failure is caught, loop continues,
nothing recorded); an accepted ordinary command is run and recorded —
note the source discards the return code (`stdout, stderr, _ = run(cmd)`)
and calls `record` without `exit_code`, so the record carries the
default exit code 0.  `q` breaks; any other reply skips.  Also returns
the indices of the commands actually run. -/
def run_stepping (env : ExecEnv) (replies : Nat → String) (w : World) (i : Nat) :
    List String → World × List Nat
  | [] => (w, [])
  | cmd :: rest =>
    if acceptChoice (replies i) then
      let w1 :=
        if pyStarts cmd "cd " then
          let path := env.expanduser (pyStrip (pyDrop cmd 3))
          if env.chdirOk path then ⟨w.log, path, w.clock⟩ else w
        else
          let r := run env cmd
          recordNow w cmd (r.stdout ++ r.stderr) 0
      let step := run_stepping env replies w1 (i + 1) rest
      (step.1, i :: step.2)
    else if quitChoice (replies i) then (w, [])
    else run_stepping env replies w (i + 1) rest

/-! ### Dispatcher (`termnl.py`, the branch structure of `main`)

One iteration of the REPL loop maps the stripped input line to the
action taken.  The branches are checked in the source's order: blank,
`exit`/`quit`, the `cd` special case, the builtin table, the `!` force
prefix, then classification. -/

inductive Action where
  | noop
  | exitApp
  | chdir (arg : String)
  | builtin (name : String)
  | forceRun (cmd : String)
  | shellExec (cmd : String)
  | translateReq (req : String)
deriving DecidableEq

/-- The keys of the `_BUILTINS` dispatch table. -/
def builtinNames : List String :=
  ["!provider", "!model", "!learn", "!autolaunch", "!update", "!uninstall", "!help"]

/-- The routing decision of one `main` loop iteration on the raw line
read by `input(...)` (which `main` immediately `.strip()`s). -/
def dispatch (whichB : String → Bool) (line : String) : Action :=
  let s := pyStrip line
  if s = "" then .noop
  else if s = "exit" || s = "quit" then .exitApp
  else if s = "cd" || pyStarts s "cd " then .chdir (pyDrop s 3)
  else if builtinNames.contains s then .builtin s
  else if pyStarts s "!" then
    (if pyDrop s 1 ≠ "" then .forceRun (pyDrop s 1) else .noop)
  else if classify_input whichB s = "shell" then .shellExec s
  else .translateReq s

/-! ### Spec-side renderings for the `render_context` claim -/

/-- Modelled from the spec claim as stated: per entry, the status line
followed by at most the first 3 NON-BLANK lines of its output,
indented. -/
def claimedEntryLines (e : HistoryEntry) : List String :=
  ("[" ++ (if e.exit_code = 0 then "✓" else "✗") ++ "] $ " ++ e.cmd) ::
    (((pySplitlines e.output).filter (fun ln => pyStrip ln ≠ "")).take 3).map
      (fun ln => "    " ++ ln)

/-- Modelled from the spec claim as stated: sentinel on an empty log,
otherwise the last 6 entries rendered with `claimedEntryLines`. -/
def claimedRenderContext (log : SessionLog) : String :=
  if log.entries = [] then "(no previous commands)"
  else
    String.intercalate "\n"
      ((log.entries.drop (log.entries.length - 6)).flatMap claimedEntryLines)

/-- Modelled from the spec as amended: the last 6 entries, taken from
the reversed list, each rendered as a status line followed by at most
the first 3 lines (blank interior lines included) of the
whitespace-stripped output, indented, and nothing when the output is
the empty string. -/
def specRenderContext (log : SessionLog) : String :=
  if log.entries = [] then "(no previous commands)"
  else
    String.intercalate "\n"
      (((log.entries.reverse.take 6).reverse).flatMap (fun e =>
        ("[" ++ (if e.exit_code = 0 then "✓" else "✗") ++ "] $ " ++ e.cmd) ::
          (if e.output = "" then []
           else ((pySplitlines (pyStrip e.output)).take 3).map
             (fun ln => "    " ++ ln))))

/-! ### Spec-side characterisations for the sequential and stepping
      executors -/

/-- Does one command of a sequential run fail: a `cd `-prefixed command
fails when `os.chdir` raises, any other command fails when its exit
code is non-zero. -/
def seqFails (env : ExecEnv) (cmd : String) : Bool :=
  if pyStarts cmd "cd " then !env.chdirOk (env.expanduser (pyStrip (pyDrop cmd 3)))
  else (run env cmd).rc ≠ 0

/-- The commands a sequential run attempts: the failure-free front of
the list, plus the first failing command when there is one. -/
def seqExpected (env : ExecEnv) (cmds : List String) : List String :=
  cmds.takeWhile (fun c => !seqFails env c) ++
    (cmds.dropWhile (fun c => !seqFails env c)).take 1

/-- The command indices a stepping run executes: those before the first
`q` reply whose own reply is accepting (`y`/`yes`/empty). -/
def steppingExpected (replies : Nat → String) (i n : Nat) : List Nat :=
  ((List.range' i n).takeWhile (fun j => !quitChoice (replies j))).filter
    (fun j => acceptChoice (replies j))

/-! ## Shared demo oracles used by the concrete instances -/

/-- A `which` oracle that finds nothing on the search path. -/
def whichNone : String → Bool := fun _ => false

/-- A demo environment where command `b` exits with code 1 and every
other command succeeds. -/
def envSeqDemo : ExecEnv :=
  ⟨fun c => if c = "b" then ⟨"", "", 1⟩ else ⟨"ok\n", "", 0⟩,
   fun _ => 0, fun _ => true, fun p => p⟩

/-- A demo environment where every captured command prints `boom` on
stderr and exits with code 7. -/
def envFail7 : ExecEnv := ⟨fun _ => ⟨"", "boom", 7⟩, fun _ => 0, fun _ => true, fun p => p⟩

/-- A demo starting state: fresh default log, a working directory, time 0. -/
def worldDemo : World := ⟨SessionLog.init 12 5000, "/home/user", 0⟩

/-! ## SessionLog lemmas -/

theorem logSize_cons (e : HistoryEntry) (l : List HistoryEntry) :
    logSize (e :: l) = entrySize e + logSize l := by
  simp [logSize]

theorem budgetEvict_suffix (b : Nat) :
    ∀ l : List HistoryEntry, (budgetEvict b l).IsSuffix l
  | [] => by simp [budgetEvict]
  | [e] => by simp [budgetEvict]
  | e :: f :: rest => by
    rw [budgetEvict]
    split
    · exact (budgetEvict_suffix b (f :: rest)).trans (List.suffix_cons e (f :: rest))
    · exact List.suffix_refl _

theorem budgetEvict_budget (b : Nat) :
    ∀ l : List HistoryEntry,
      (budgetEvict b l).length ≤ 1 ∨ logSize (budgetEvict b l) ≤ b
  | [] => by simp [budgetEvict]
  | [e] => by simp [budgetEvict]
  | e :: f :: rest => by
    rw [budgetEvict]
    split
    · exact budgetEvict_budget b (f :: rest)
    · next h => exact Or.inr (Nat.le_of_not_lt h)

theorem truncOutput_length (output : String) : (truncOutput output).length ≤ 600 := by
  rw [truncOutput]
  split
  · simp
  · show (output.toList.take 600).length ≤ 600
    simp [List.length_take]

/-- Claim C2: after any `record` call on a log whose stored outputs
respect the 600-character truncation, the entry count is at most the
capacity, the total character size is within the token budget whenever
more than one entry is present, every stored output still has at most
600 characters, and the surviving entries are a suffix of the old
entries plus the new one (eviction is strict FIFO, oldest first). -/
theorem sessionLog_record_invariants (log : SessionLog) (cmd output : String)
    (ec : Int) (ts : Nat) (h600 : ∀ e ∈ log.entries, e.output.length ≤ 600) :
    (log.record cmd output ec ts).entries.length ≤ log.capacity ∧
    (1 < (log.record cmd output ec ts).entries.length →
      logSize (log.record cmd output ec ts).entries ≤ log.token_budget) ∧
    (∀ e ∈ (log.record cmd output ec ts).entries, e.output.length ≤ 600) ∧
    (log.record cmd output ec ts).entries.IsSuffix
      (log.entries ++ [⟨cmd, truncOutput output, ec, ts⟩]) := by
  set newE : HistoryEntry := ⟨cmd, truncOutput output, ec, ts⟩ with hnewE
  set appended := log.entries ++ [newE] with happ
  set capped :=
    if log.capacity < appended.length
    then appended.drop (appended.length - log.capacity) else appended with hcapdef
  have hrec : (log.record cmd output ec ts).entries =
      budgetEvict log.token_budget capped := rfl
  have hcaplen : capped.length ≤ log.capacity := by
    rw [hcapdef]
    split
    · next h => simp [List.length_drop]; omega
    · next h => omega
  have hcapsuf : capped.IsSuffix appended := by
    rw [hcapdef]
    split
    · exact List.drop_suffix _ _
    · exact List.suffix_refl _
  have hsuf : (log.record cmd output ec ts).entries.IsSuffix appended := by
    rw [hrec]
    exact (budgetEvict_suffix log.token_budget capped).trans hcapsuf
  refine ⟨?_, ?_, ?_, hsuf⟩
  · calc (log.record cmd output ec ts).entries.length
        ≤ capped.length := by
          rw [hrec]; exact (budgetEvict_suffix log.token_budget capped).length_le
      _ ≤ log.capacity := hcaplen
  · intro hgt
    rw [hrec] at hgt ⊢
    rcases budgetEvict_budget log.token_budget capped with h1 | h2
    · omega
    · exact h2
  · intro e he
    have hmem : e ∈ appended := hsuf.sublist.subset he
    rcases List.mem_append.mp hmem with hold | hnew
    · exact h600 e hold
    · have : e = ⟨cmd, truncOutput output, ec, ts⟩ := by simpa using hnew
      rw [this]
      exact truncOutput_length output

/-- Witness for `sessionLog_record_invariants` at a concrete log. -/
theorem sessionLog_record_invariants_witness :
    ((SessionLog.init 2 10).record "ab" "cdef" 0 0).entries.length ≤ 2 ∧
    (1 < ((SessionLog.init 2 10).record "ab" "cdef" 0 0).entries.length →
      logSize ((SessionLog.init 2 10).record "ab" "cdef" 0 0).entries ≤ 10) ∧
    (∀ e ∈ ((SessionLog.init 2 10).record "ab" "cdef" 0 0).entries,
      e.output.length ≤ 600) ∧
    ((SessionLog.init 2 10).record "ab" "cdef" 0 0).entries.IsSuffix
      ((SessionLog.init 2 10).entries ++ [⟨"ab", truncOutput "cdef", 0, 0⟩]) :=
  sessionLog_record_invariants (SessionLog.init 2 10) "ab" "cdef" 0 0
    (by intro e he; simp [SessionLog.init] at he)

/-! ## render_context -/

/-- A concrete log whose single entry's output contains a blank
interior line. -/
def logBlankLine : SessionLog := (SessionLog.init 12 5000).record "c" "a\n\nb" 0 0

/-- Claim C3 counterexample: the code renders the first 3 lines of the
stripped output, which can include blank interior lines, so on an entry
with output `"a\n\nb"` the rendering differs from the claimed "first 3
non-blank lines" rendering. -/
theorem render_context_counterexample :
    SessionLog.render_context logBlankLine ≠ claimedRenderContext logBlankLine := by
  decide

/-- Claim C3 (amended): `render_context()` on an empty log returns the
sentinel `"(no previous commands)"`; on a non-empty log it renders at
most the last 6 entries in chronological order, each as one status line
(✓ for exit code 0, ✗ otherwise, plus the command) followed by at most
the first 3 lines of that entry's whitespace-stripped output (blank
interior lines included), indented — at most 4 lines per entry. -/
theorem render_context_amended (log : SessionLog) (cap bud : Nat) (e : HistoryEntry) :
    SessionLog.render_context log = specRenderContext log ∧
    SessionLog.render_context (SessionLog.init cap bud) = "(no previous commands)" ∧
    (entryLines e).length ≤ 1 + 3 := by
  refine ⟨?_, by simp [SessionLog.render_context, SessionLog.init], ?_⟩
  · unfold SessionLog.render_context specRenderContext
    by_cases hemp : log.entries = []
    · simp [hemp]
    · simp only [hemp, if_neg, ite_false]
      rw [List.take_reverse, List.reverse_reverse]
      congr 1
      congr 1
      funext x
      by_cases hx : x.output = "" <;> simp [entryLines, hx]
  · by_cases h : e.output = "" <;>
      simp [entryLines, h, List.length_take]

/-! ## Sequential mode -/

theorem accept_not_quit {r : String} (h : acceptChoice r = true) : quitChoice r = false := by
  rw [acceptChoice] at h
  rw [quitChoice]
  rcases Bool.or_eq_true_iff.mp h with h' | h'
  · rcases Bool.or_eq_true_iff.mp h' with h'' | h''
    · simp_all
    · simp_all
  · simp_all

/-- Claim C4: sequential mode attempts the commands in list order and
stops right after the first failing one (non-zero exit code for an
ordinary command, a failing `os.chdir` for a `cd `-prefixed one): the
attempted commands are exactly the failure-free front of the list plus
the first failing command, so no command after the first failure is
ever run; in particular for `["a", "b", "c"]` with `b` exiting 1, the
run attempts `["a", "b"]` and `c` is never run. -/
theorem run_sequence_stops_at_first_failure :
    (∀ (env : ExecEnv) (w : World) (cmds : List String),
      (run_sequence env w cmds).2 = seqExpected env cmds) ∧
    (run_sequence envSeqDemo worldDemo ["a", "b", "c"]).2 = ["a", "b"] := by
  have main : ∀ (env : ExecEnv) (cmds : List String) (w : World),
      (run_sequence env w cmds).2 = seqExpected env cmds := by
    intro env cmds
    induction cmds with
    | nil => intro w; rfl
    | cons cmd rest ih =>
      intro w
      by_cases hcd : pyStarts cmd "cd " = true
      · by_cases hok : env.chdirOk (env.expanduser (pyStrip (pyDrop cmd 3))) = true
        · have hnf : seqFails env cmd = false := by simp [seqFails, hcd, hok]
          simp [run_sequence, seqExpected, hcd, hok, hnf, ih,
            List.takeWhile_cons, List.dropWhile_cons]
        · have hf : seqFails env cmd = true := by simp [seqFails, hcd, hok]
          simp [run_sequence, seqExpected, hcd, hok, hf,
            List.takeWhile_cons, List.dropWhile_cons]
      · by_cases hrc : (run env cmd).rc = 0
        · have hnf : seqFails env cmd = false := by simp [seqFails, hcd, hrc]
          simp [run_sequence, seqExpected, hcd, hrc, hnf, ih,
            List.takeWhile_cons, List.dropWhile_cons]
        · have hf : seqFails env cmd = true := by simp [seqFails, hcd, hrc]
          simp [run_sequence, seqExpected, hcd, hrc, hf,
            List.takeWhile_cons, List.dropWhile_cons]
  refine ⟨fun env w cmds => main env cmds w, ?_⟩
  rw [main envSeqDemo ["a", "b", "c"] worldDemo]
  decide

/-! ## Stepping mode -/

/-- Demo reply stream: `y` to the first prompt, `q` to the second. -/
def repliesYQ : Nat → String := fun n => if n = 0 then "y" else if n = 1 then "q" else ""

/-- Demo reply stream: `n` to the second prompt, `y` to all others. -/
def repliesYNY : Nat → String := fun n => if n = 1 then "n" else "y"

/-- Claim C5: stepping mode runs exactly the commands whose prompt
precedes the first `q` reply and whose own reply is `y`/`yes`/empty
(`n` — like any other reply — skips and continues, `q` aborts the rest
immediately); in particular with replies `y, q` only command 0 runs,
and with replies `y, n, y` commands 0 and 2 run while 1 is skipped. -/
theorem run_stepping_follows_replies :
    (∀ (env : ExecEnv) (replies : Nat → String) (cmds : List String)
      (w : World) (i : Nat),
      (run_stepping env replies w i cmds).2 = steppingExpected replies i cmds.length) ∧
    (run_stepping envSeqDemo repliesYQ worldDemo 0 ["a", "b", "c"]).2 = [0] ∧
    (run_stepping envSeqDemo repliesYNY worldDemo 0 ["a", "b", "c"]).2 = [0, 2] := by
  have main : ∀ (env : ExecEnv) (replies : Nat → String) (cmds : List String)
      (w : World) (i : Nat),
      (run_stepping env replies w i cmds).2 = steppingExpected replies i cmds.length := by
    intro env replies cmds
    induction cmds with
    | nil => intro w i; rfl
    | cons cmd rest ih =>
      intro w i
      by_cases hacc : acceptChoice (replies i) = true
      · have hq : quitChoice (replies i) = false := accept_not_quit hacc
        simp [run_stepping, steppingExpected, hacc, hq, List.range'_succ,
          List.takeWhile_cons, List.filter_cons, ih]
      · by_cases hq : quitChoice (replies i) = true
        · simp [run_stepping, steppingExpected, hacc, hq, List.range'_succ,
            List.takeWhile_cons]
        · simp [run_stepping, steppingExpected, hacc, hq, List.range'_succ,
            List.takeWhile_cons, List.filter_cons, ih]
  exact ⟨main, by rw [main]; decide, by rw [main]; decide⟩

/-! ## Recording across the orchestration modes -/

/-- Claim C1 (amended): `_handle_force_run` (which is also the body of
the direct-shell branch of `main`), a confirmed `_exec_single`, and each
non-`cd` command of `_run_sequence` record the executed command with its
captured output and its actual exit code; but `_run_stepping` records an
executed command with exit code 0 regardless of the actual exit code
(the source discards the return code and relies on `record`'s default),
and commands handled via `os.chdir` (`cd `-prefixed) are never recorded
in any mode. -/
theorem executed_commands_recorded_amended (env : ExecEnv) (w : World)
    (cmd reply : String) :
    (handle_force_run env w cmd).log =
      w.log.record cmd ((run env cmd).stdout ++ (run env cmd).stderr)
        (run env cmd).rc w.clock ∧
    (¬ pyStarts cmd "cd " = true →
      (exec_single env w cmd "").1.log =
        w.log.record cmd ((run env cmd).stdout ++ (run env cmd).stderr)
          (run env cmd).rc w.clock) ∧
    (pyStarts cmd "cd " = true → (exec_single env w cmd "").1.log = w.log) ∧
    (¬ pyStarts cmd "cd " = true →
      (run_sequence env w [cmd]).1.log =
        w.log.record cmd ((run env cmd).stdout ++ (run env cmd).stderr)
          (run env cmd).rc w.clock) ∧
    (pyStarts cmd "cd " = true → (run_sequence env w [cmd]).1.log = w.log) ∧
    (¬ pyStarts cmd "cd " = true → acceptChoice reply = true →
      (run_stepping env (fun _ => reply) w 0 [cmd]).1.log =
        w.log.record cmd ((run env cmd).stdout ++ (run env cmd).stderr) 0 w.clock) ∧
    (pyStarts cmd "cd " = true → acceptChoice reply = true →
      (run_stepping env (fun _ => reply) w 0 [cmd]).1.log = w.log) := by
  refine ⟨rfl, ?_, ?_, ?_, ?_, ?_, ?_⟩
  · intro hcd
    simp [exec_single, recordNow, hcd]
  · intro hcd
    simp only [exec_single, handle_cd, hcd, ne_eq, not_true_eq_false,
      Bool.false_eq_true, if_false, if_true]
    split <;> split <;> rfl
  · intro hcd
    by_cases hrc : (run env cmd).rc = 0 <;>
      simp [run_sequence, recordNow, hcd, hrc]
  · intro hcd
    by_cases hok : env.chdirOk (env.expanduser (pyStrip (pyDrop cmd 3))) = true <;>
      simp [run_sequence, hcd, hok]
  · intro hcd hacc
    simp [run_stepping, recordNow, hcd, hacc]
  · intro hcd hacc
    by_cases hok : env.chdirOk (env.expanduser (pyStrip (pyDrop cmd 3))) = true <;>
      simp [run_stepping, hcd, hacc, hok]

/-- Witness for `executed_commands_recorded_amended`: a concrete
stepping execution whose record carries exit code 0. -/
theorem executed_commands_recorded_amended_witness :
    (run_stepping envFail7 (fun _ => "y") worldDemo 0 ["x"]).1.log =
      worldDemo.log.record "x"
        ((run envFail7 "x").stdout ++ (run envFail7 "x").stderr) 0 worldDemo.clock :=
  (executed_commands_recorded_amended envFail7 worldDemo "x" "y").2.2.2.2.2.1
    (by decide) (by decide)

/-- Claim C1 counterexample: in stepping mode a command whose actual
exit code is 7 is recorded with exit code 0 — the session log entry does
not carry the actual exit code. -/
theorem stepping_record_counterexample :
    (run envFail7 "a").rc = 7 ∧
    (run_stepping envFail7 (fun _ => "y") worldDemo 0 ["a"]).1.log.entries =
      [⟨"a", "boom", 0, 0⟩] := by
  decide

/-! ## Classifier: the question-mark rule -/

theorem overlapPenalty_nonneg (s : String) : 0 ≤ overlapPenalty s := by
  rw [overlapPenalty]; split_ifs <;> norm_num

theorem longPenalty_nonneg (whichB : String → Bool) (s : String) :
    0 ≤ longPenalty whichB s := by
  rw [longPenalty]; split_ifs <;> norm_num

theorem upperPenalty_nonneg (s : String) : 0 ≤ upperPenalty s := by
  rw [upperPenalty]; split_ifs <;> norm_num

theorem shortLowerBonus_le_two (s : String) : shortLowerBonus s ≤ 2 := by
  rw [shortLowerBonus]; split_ifs <;> norm_num

/-- Claim C6 counterexample: `"/a?"` contains `?`, is captured by no
builtin short-circuit and not by the cd override, yet classifies as
shell (path +3.0, question −3.0, short-lowercase +1.0 gives 1.0 ≥ 1.0)
— a question-marked input is not always Natural. -/
theorem classify_question_counterexample :
    strContains (pyStrip "/a?") "?" = true ∧
    classify_input whichNone "/a?" = "shell" := by
  decide

/-- Claim C6 (amended): the `?` signal contributes exactly −3.0 to the
classification score, and an input containing `?` that no builtin
short-circuit or cd override captures classifies as Natural provided
none of the positive shell signals (path, `$`, PATH lookup, operator,
redirection) fire; with positive signals the score can still reach the
shell threshold. -/
theorem classify_question_amended (whichB : String → Bool) (text : String)
    (hne : pyStrip text ≠ "")
    (hbang : pyStarts (pyStrip text) "!" = false)
    (hexit : pyStrip text ≠ "exit")
    (hquit : pyStrip text ≠ "quit")
    (hcd : pyStrip text ≠ "cd")
    (hcds : pyStarts (pyStrip text) "cd " = false)
    (hq : strContains (pyStrip text) "?" = true) :
    halfPointsToRat (classifyScore whichB (pyStrip text)) =
      halfPointsToRat (classifyScoreNoQuestion whichB (pyStrip text)) - 3 ∧
    (posSignals whichB (pyStrip text) = 0 →
      classify_input whichB text = "natural") := by
  constructor
  · have hint : classifyScore whichB (pyStrip text) =
        classifyScoreNoQuestion whichB (pyStrip text) - 6 := by
      rw [classifyScore, classifyScoreNoQuestion, questionPenalty, if_pos hq]
      ring
    rw [halfPointsToRat, halfPointsToRat, hint]
    push_cast
    ring
  · intro hsig
    have hscore : classifyScore whichB (pyStrip text) < 2 := by
      have h1 := overlapPenalty_nonneg (pyStrip text)
      have h2 := longPenalty_nonneg whichB (pyStrip text)
      have h3 := upperPenalty_nonneg (pyStrip text)
      have h4 := shortLowerBonus_le_two (pyStrip text)
      have hqp : questionPenalty (pyStrip text) = 6 := by
        rw [questionPenalty, if_pos hq]
      rw [classifyScore, scoreAfterOverlap, hsig, hqp]
      linarith
    simp only [classify_input]
    rw [if_neg hne, if_neg (by simp [hbang]), if_neg (by simp [hexit, hquit]),
      if_neg (by simp [hcd, hcds]), if_neg (not_le.mpr hscore)]

/-- Witness for `classify_question_amended` on a concrete question. -/
theorem classify_question_amended_witness :
    classify_input whichNone "what is a?" = "natural" :=
  (classify_question_amended whichNone "what is a?" (by decide) (by decide)
    (by decide) (by decide) (by decide) (by decide) (by decide)).2 (by decide)

/-! ## The cd override and the dispatcher -/

theorem ne_of_toList_ne {s t : String} (h : s.toList ≠ t.toList) : s ≠ t :=
  fun he => h (by rw [he])

theorem listStarts_cons {c : Char} {cs l : List Char}
    (h : listStarts (c :: cs) l = true) :
    ∃ t, l = c :: t ∧ listStarts cs t = true := by
  cases l with
  | nil => exact absurd h (by simp [listStarts])
  | cons d ds =>
    rw [listStarts] at h
    rcases Bool.and_eq_true_iff.mp h with ⟨h1, h2⟩
    refine ⟨ds, ?_, h2⟩
    have hc : c = d := of_decide_eq_true h1
    rw [hc]

/-- Claim C7: input equal to `cd` or starting with `cd ` classifies as
Shell unconditionally, and the dispatcher handles it by changing the
working directory — it is never routed to translation. -/
theorem cd_override (whichB : String → Bool) (line : String)
    (h : pyStrip line = "cd" ∨ pyStarts (pyStrip line) "cd " = true) :
    classify_input whichB line = "shell" ∧
    dispatch whichB line = Action.chdir (pyDrop (pyStrip line) 3) ∧
    (∀ req, dispatch whichB line ≠ Action.translateReq req) := by
  have hne : pyStrip line ≠ "" := by
    rcases h with h | h
    · rw [h]; decide
    · obtain ⟨t, ht, -⟩ := listStarts_cons (show listStarts ['c', 'd', ' ']
        (pyStrip line).toList = true from h)
      apply ne_of_toList_ne
      rw [ht]
      intro hx
      exact absurd (hx.trans (rfl : ("" : String).toList = [])) (by simp)
  have hbang : pyStarts (pyStrip line) "!" = false := by
    rcases h with h | h
    · rw [h]; decide
    · obtain ⟨t, ht, -⟩ := listStarts_cons (show listStarts ['c', 'd', ' ']
        (pyStrip line).toList = true from h)
      show listStarts ['!'] (pyStrip line).toList = false
      rw [ht]
      rfl
  have hexit : pyStrip line ≠ "exit" := by
    rcases h with h | h
    · rw [h]; decide
    · obtain ⟨t, ht, -⟩ := listStarts_cons (show listStarts ['c', 'd', ' ']
        (pyStrip line).toList = true from h)
      apply ne_of_toList_ne
      rw [ht, show ("exit" : String).toList = ['e', 'x', 'i', 't'] from rfl]
      intro hx
      injection hx with h1 _
      exact absurd h1 (by decide)
  have hquit : pyStrip line ≠ "quit" := by
    rcases h with h | h
    · rw [h]; decide
    · obtain ⟨t, ht, -⟩ := listStarts_cons (show listStarts ['c', 'd', ' ']
        (pyStrip line).toList = true from h)
      apply ne_of_toList_ne
      rw [ht, show ("quit" : String).toList = ['q', 'u', 'i', 't'] from rfl]
      intro hx
      injection hx with h1 _
      exact absurd h1 (by decide)
  have hcdcond : (decide (pyStrip line = "cd") || pyStarts (pyStrip line) "cd ") = true := by
    rcases h with h | h
    · simp [h]
    · simp [h]
  have hclass : classify_input whichB line = "shell" := by
    simp only [classify_input]
    rw [if_neg hne, if_neg (by simp [hbang]), if_neg (by simp [hexit, hquit]),
      if_pos (by simpa using hcdcond)]
  have hdisp : dispatch whichB line = Action.chdir (pyDrop (pyStrip line) 3) := by
    simp only [dispatch]
    rw [if_neg hne, if_neg (by simp [hexit, hquit]), if_pos (by simpa using hcdcond)]
  refine ⟨hclass, hdisp, ?_⟩
  intro req
  rw [hdisp]
  simp

/-- Witness for `cd_override` at the spec's example `cd /tmp`. -/
theorem cd_override_witness :
    classify_input whichNone "cd /tmp" = "shell" ∧
    dispatch whichNone "cd /tmp" = Action.chdir "/tmp" := by
  have h := cd_override whichNone "cd /tmp" (Or.inr (by decide))
  refine ⟨h.1, ?_⟩
  rw [h.2.1]
  decide

/-! ## Translator claims -/

/-- Claim C8: `translate` returns an empty command list whenever the
ask collaborator returns nothing (None or empty text); otherwise the
returned commands are exactly the response's lines, each trimmed, with
blank lines dropped, in the collaborator's order. -/
theorem translate_parses_lines (u c sh ctx : String) (lm : Bool)
    (ask : String → AskOutcome) :
    ((ask (buildPrompt u c sh ctx) = .returns none ∨
      ask (buildPrompt u c sh ctx) = .returns (some "")) →
      translate u c sh lm ctx ask = .ok ⟨[], none⟩) ∧
    (∀ raw, ask (buildPrompt u c sh ctx) = .returns (some raw) →
      cmdsOf (translate u c sh lm ctx ask) = parseCommands raw) := by
  constructor
  · intro h
    rcases h with h | h <;> rw [translate, h] <;> rfl
  · intro raw h
    rw [translate, h]
    by_cases hr : raw = ""
    · subst hr
      rfl
    · by_cases hl : (lm && !(parseCommands raw).isEmpty) = true
      · cases hask : ask (tipPrompt (cmdRepr (parseCommands raw))) with
        | raises => simp [pyTruthy, hr, hl, hask, cmdsOf]
        | returns tip => simp [pyTruthy, hr, hl, hask, cmdsOf]
      · simp [pyTruthy, hr, hl, cmdsOf]

/-- A demo collaborator answering every prompt with `"ls\n\nls -la\n"`. -/
def askLsDemo : String → AskOutcome := fun _ => .returns (some "ls\n\nls -la\n")

/-- Witness for `translate_parses_lines` at the spec's example response:
the blank line is dropped and the order preserved. -/
theorem translate_parses_lines_witness :
    cmdsOf (translate "list" "/h" "Linux/bash" false "(no previous commands)"
      askLsDemo) = ["ls", "ls -la"] := by
  rw [(translate_parses_lines "list" "/h" "Linux/bash"
    "(no previous commands)" false askLsDemo).2 "ls\n\nls -la\n" rfl]
  decide

/-- Claim C9: with learning mode on, the command list of a translation
is always the one learning-off translation would produce, and when the
second (explanation) ask call raises or returns nothing, translation
still succeeds — it merely lacks an explanation. -/
theorem translate_explanation_swallowed (u c sh ctx : String)
    (ask : String → AskOutcome) :
    Except.map TranslationResult.commands (translate u c sh true ctx ask) =
      Except.map TranslationResult.commands (translate u c sh false ctx ask) ∧
    (∀ raw, ask (buildPrompt u c sh ctx) = .returns (some raw) →
      (ask (tipPrompt (cmdRepr (parseCommands raw))) = .raises ∨
       ask (tipPrompt (cmdRepr (parseCommands raw))) = .returns none ∨
       ask (tipPrompt (cmdRepr (parseCommands raw))) = .returns (some "")) →
      translate u c sh true ctx ask = .ok ⟨parseCommands raw, none⟩) := by
  constructor
  · cases hask : ask (buildPrompt u c sh ctx) with
    | raises => simp [translate, hask]
    | returns raw =>
      by_cases hr : pyTruthy raw = true
      · by_cases hl : (!(parseCommands (raw.getD "")).isEmpty) = true
        · cases hask2 : ask (tipPrompt (cmdRepr (parseCommands (raw.getD "")))) with
          | raises => simp [translate, hask, hr, hl, hask2, Except.map]
          | returns tip => simp [translate, hask, hr, hl, hask2, Except.map]
        · simp [translate, hask, hr, hl]
      · simp [translate, hask, hr]
  · intro raw h htip
    rw [translate, h]
    by_cases hr : raw = ""
    · subst hr
      rfl
    · by_cases hempty : (parseCommands raw).isEmpty = true
      · simp [pyTruthy, hr, hempty]
      · rcases htip with htip | htip | htip <;>
          simp [pyTruthy, hr, hempty, htip]

/-- A demo collaborator that answers the translation prompt with
`"ls\n"` and raises on every other prompt (so the explanation call
fails). -/
def askNoTipDemo : String → AskOutcome :=
  fun p => if p = buildPrompt "u" "/h" "Linux/bash" "(no previous commands)"
    then .returns (some "ls\n") else .raises

/-- Witness for `translate_explanation_swallowed`: the failing
explanation call is swallowed and the translation still succeeds. -/
theorem translate_explanation_swallowed_witness :
    translate "u" "/h" "Linux/bash" true "(no previous commands)" askNoTipDemo =
      .ok ⟨["ls"], none⟩ := by
  rw [(translate_explanation_swallowed "u" "/h" "Linux/bash"
    "(no previous commands)" askNoTipDemo).2 "ls\n" (by decide)
    (Or.inl (by decide))]
  have hp : parseCommands "ls\n" = ["ls"] := by decide
  rw [hp]

/-! ## Single-confirm execution -/

/-- Claim C10: in single-confirm execution the proposed command runs if
and only if the confirmation reply is exactly the empty string; any
non-empty reply (including `y`) cancels, and on cancellation the whole
state — session log, working directory and clock — is left unchanged
(no subprocess outcome is produced). -/
theorem exec_single_confirm_gate (env : ExecEnv) (w : World) (cmd reply : String) :
    ((exec_single env w cmd reply).2 ≠ SingleOutcome.cancelled ↔ reply = "") ∧
    (reply ≠ "" → (exec_single env w cmd reply).1 = w) := by
  by_cases hr : reply = ""
  · subst hr
    refine ⟨⟨fun _ => rfl, fun _ => ?_⟩, fun h => absurd rfl h⟩
    rw [exec_single, if_neg (by simp)]
    split <;> simp
  · have he : exec_single env w cmd reply = (w, .cancelled) := by
      rw [exec_single, if_pos hr]
    refine ⟨⟨fun hc => absurd (by rw [he]) hc, fun h => absurd h hr⟩, fun _ => by rw [he]⟩

/-- Witness for `exec_single_confirm_gate`: a `y` reply cancels and
leaves the state unchanged. -/
theorem exec_single_confirm_gate_witness :
    (exec_single envSeqDemo worldDemo "ls" "y").1 = worldDemo :=
  (exec_single_confirm_gate envSeqDemo worldDemo "ls" "y").2 (by decide)

end Termnl
